import Mathlib

/-!
Verification development for the HTML-extraction logic of
`ecourts_scraper.py` (eCourts cause-list and case-status scraper).

The extraction pipeline is embedded shallowly:
* tables are modelled as lists of rows of cells, each cell tagged as a
  header cell (`th`) or data cell (`td`) and carrying its text;
* Python dicts are modelled as insertion-ordered association lists with
  last-write-wins update (`dictInsert`);
* `str.replace` and `datetime.strptime(_, '%d %B %Y')` are modelled
  character-by-character over `List Char`.
-/

/-- One table cell: `isTh` is true for a `th` cell, false for a `td` cell;
`text` is the cell's text content (`.text` in BeautifulSoup). -/
structure HCell where
  isTh : Bool
  text : String
deriving DecidableEq

/-- One table row (a `tr` element): its cells in document order. -/
structure HRow where
  cells : List HCell
deriving DecidableEq

/-- One table element: its CSS classes and its rows (`tr`) in document order.
The cause-list scraper never reads `classes`; it is carried so that the
"no case-status class marker is present" premise of the locator claims can be
expressed. -/
structure HTable where
  classes : List String
  rows : List HRow
deriving DecidableEq

/-- Python dict assignment `d[k] = v` on an insertion-ordered association
list: an existing key keeps its position and gets the new value, a new key is
appended at the end. -/
def dictInsert (d : List (String × String)) (k v : String) : List (String × String) :=
  match d with
  | [] => [(k, v)]
  | (k', v') :: rest => if k' = k then (k', v) :: rest else (k', v') :: dictInsert rest k v

/-- The whitespace characters stripped by Python's `str.strip()` (the ASCII
ones; the scraper's inputs are ASCII-spaced). -/
def isSpaceCh (c : Char) : Bool :=
  c = ' ' || c = '\t' || c = '\n' || c = '\x0d' || c = '\x0b' || c = '\x0c'

/-- Python `str.strip()`: remove leading and trailing whitespace. -/
def pyStrip (s : String) : String :=
  ⟨((s.toList.dropWhile isSpaceCh).reverse.dropWhile isSpaceCh).reverse⟩

/-- Line 95: `headers = [th.text.strip() for th in hearings_table.find_all('th')]`.
`find_all('th')` returns every `th` cell of the whole table in document
order, not only those of one header row. -/
def thTexts (t : HTable) : List String :=
  (t.rows.map (fun r => (r.cells.filter (fun c => c.isTh)).map (fun c => pyStrip c.text))).flatten

/-- Line 100 and 105: the stripped texts of the `td` cells of one row
(`row.find_all('td')`). -/
def tdTexts (r : HRow) : List String :=
  (r.cells.filter (fun c => !c.isTh)).map (fun c => pyStrip c.text)

/-- Lines 95-100: headers come from the table's `th` cells; if there are
none, they come from the `td` cells of the first `tr` (if any). -/
def deriveHeaders (t : HTable) : List String :=
  let hs := thTexts t
  if hs.isEmpty then
    match t.rows with
    | [] => []
    | r :: _ => tdTexts r
  else hs

/-- Line 102: `rows = table.find_all('tr')[1:] if headers else table.find_all('tr')`.
When any headers were derived, the first row is dropped unconditionally. -/
def usedRows (t : HTable) : List HRow :=
  if (deriveHeaders t).isEmpty then t.rows else t.rows.drop 1

/-- Line 108: the dict comprehension
{headers[i]: cell.text.strip() for i, cell in enumerate(cells) if i < len(headers)},
built in index order with Python-dict update semantics. -/
def mkRecord (headers cells : List String) : List (String × String) :=
  (headers.zip cells).foldl (fun d p => dictInsert d p.1 p.2) []

/-- Enumeration of a list starting at a given index (Python `enumerate`). -/
def enumFrom : Nat → List String → List (Nat × String)
  | _, [] => []
  | i, c :: cs => (i, c) :: enumFrom (i + 1) cs

/-- Line 110: the positional-label fallback dict comprehension
{f"Column_\x7bi+1\x7d": cell.text.strip() for i, cell in enumerate(cells)}. -/
def mkColRecord (cells : List String) : List (String × String) :=
  (enumFrom 0 cells).foldl (fun d p => dictInsert d ("Column_" ++ toString (p.1 + 1)) p.2) []

/-- Lines 104-111: the extraction loop. Rows with zero `td` cells are
skipped; with a nonempty header list each row becomes `mkRecord`, otherwise
`mkColRecord`. -/
def extract (t : HTable) : List (List (String × String)) :=
  (usedRows t).filterMap (fun r =>
    let cells := tdTexts r
    if cells.isEmpty then none
    else if (deriveHeaders t).isEmpty then some (mkColRecord cells)
    else some (mkRecord (deriveHeaders t) cells))

/-- Python `max(ts, key=...)` keeps the current best on ties, so the first
maximal element wins; the key here is the row count (line 88). -/
def pickBest (best c : HTable) : HTable :=
  if best.rows.length < c.rows.length then c else best

/-- Line 88: `max(all_tables, key=lambda t: len(t.find_all('tr'))) if all_tables else None`. -/
def pickMax (ts : List HTable) : Option HTable :=
  match ts with
  | [] => none
  | t :: rest => some (rest.foldl pickBest t)

/-- Lines 62-88, the table locator. `iframeTables = some ts` models a page
whose results iframe became available with tables `ts`; when `ts` is
nonempty the wait for a table inside the iframe succeeds and the code takes
`soup.find('table')`, i.e. the first table (line 73). When the iframe has no
table, the wait at lines 68-70 times out, so the TimeoutException handler at
line 75 switches back and searches the top-level document; `iframeTables =
none` (no iframe appearing at all, the wait at lines 63-65 timing out) lands
in the same top-level fallback. In the top-level fallback the wait for a
table at lines 79-81 succeeds exactly when `topTables` is nonempty, and then
the table with the most rows is taken (line 88); with zero top-level tables
that wait can never succeed, its TimeoutException propagates to the handler
at line 130, and no table is located — this embedding assumes the parsed
page agrees with the waited-on DOM (no race), under which line 88's `else
None` arm is unreachable. So `none` here means the run aborts with the
line-130 timeout. -/
def locateTable (iframeTables : Option (List HTable)) (topTables : List HTable) :
    Option HTable :=
  match iframeTables with
  | some ts =>
    match ts with
    | [] => pickMax topTables
    | t :: _ => some t
  | none => pickMax topTables

/-- Outcome of one cause-list run (lines 62-137). `timedOut` models the
TimeoutException handler at lines 130-133: "Timed out waiting for the
results to load." is printed, the driver is quit, None is returned and no
file is written — this is where a zero-table document ends up, because the
table-presence wait can never succeed there. `noTableFound` models the
distinct "Could not find the hearings table" return of lines 90-92 (also no
file); in this race-free embedding a successful table wait guarantees the
parse finds a table, so no run produces it — the constructor exists so that
this can be stated. `noCases` models the run where a table was found but
zero records qualified: no file is written and the function ends up
returning None to its caller (the unbound `save_path` at line 128 raises and
is caught by the generic handler at line 134, which returns None).
`saved rs` models the successful JSON dump of the nonempty record list
`rs`. -/
inductive CLResult where
  | timedOut : CLResult
  | noTableFound : CLResult
  | noCases : CLResult
  | saved : List (List (String × String)) → CLResult
deriving DecidableEq

/-- Lines 62-137: wait for and locate the hearings table (a fruitless wait
ends the run in the line-130 timeout), extract its records, and save them
only when at least one record was produced. -/
def downloadCauselist (iframeTables : Option (List HTable)) (topTables : List HTable) :
    CLResult :=
  match locateTable iframeTables topTables with
  | none => CLResult.timedOut
  | some tb =>
    let cases := extract tb
    if cases.isEmpty then CLResult.noCases else CLResult.saved cases

/-- Try to consume the pattern characters from the front of a string;
return the remainder on success. -/
def dropPat : List Char → List Char → Option (List Char)
  | [], s => some s
  | _ :: _, [] => none
  | p :: ps, c :: cs => if p = c then dropPat ps cs else none

/-- Python `str.replace(pat, '')` with a nonempty pattern `p :: ps`: scan
left to right, deleting each non-overlapping occurrence of the pattern. The
fuel argument (instantiated with the string length, enough for one step per
character) only makes the recursion structural. -/
def replCharsFuel (p : Char) (ps : List Char) : Nat → List Char → List Char
  | 0, s => s
  | _ + 1, [] => []
  | fuel + 1, c :: cs =>
    match (if p = c then dropPat ps cs else none) with
    | some rest => replCharsFuel p ps fuel rest
    | none => c :: replCharsFuel p ps fuel cs

/-- Python `s.replace(pat, '')` for a nonempty pattern. -/
def pyReplaceDel (s pat : String) : String :=
  match pat.toList with
  | [] => s
  | p :: ps => ⟨replCharsFuel p ps s.toList.length s.toList⟩

/-- Line 226:
`next_hearing_date_str.replace('st', '').replace('nd', '').replace('rd', '').replace('th', '')`.
Note each `replace` deletes the two-letter substring everywhere in the
string, not only after a day number. -/
def cleanDate (s : String) : String :=
  pyReplaceDel (pyReplaceDel (pyReplaceDel (pyReplaceDel s "st") "nd") "rd") "th"

/-- Numeric value of a decimal digit character. -/
def digitVal (c : Char) : Nat := c.toNat - '0'.toNat

/-- Value of a list of decimal digit characters, most significant first. -/
def natOfDigits (ds : List Char) : Nat :=
  ds.foldl (fun acc c => acc * 10 + digitVal c) 0

/-- The full month names recognised by `strptime`'s `%B` (English locale),
month 1 first. -/
def monthNames : List String :=
  ["January", "February", "March", "April", "May", "June",
   "July", "August", "September", "October", "November", "December"]

/-- Case-insensitive character match (strptime compiles its regex with
IGNORECASE). -/
def lowerEq (a b : Char) : Bool := a.toLower == b.toLower

/-- Consume a name case-insensitively from the front of the input; return
the remainder on success. -/
def matchCI : List Char → List Char → Option (List Char)
  | [], s => some s
  | _ :: _, [] => none
  | p :: ps, c :: cs => if lowerEq p c then matchCI ps cs else none

/-- Find which month name starts the input (`i` is the number of the first
candidate). No month name is a prefix of another, so at most one matches and
the order of attempts is irrelevant. -/
def matchMonthFrom : Nat → List String → List Char → Option (Nat × List Char)
  | _, [], _ => none
  | i, n :: ns, cs =>
    match matchCI n.toList cs with
    | some rest => some (i, rest)
    | none => matchMonthFrom (i + 1) ns cs

/-- Gregorian leap year, as used by `datetime.date`. -/
def isLeap (y : Nat) : Bool :=
  y % 4 = 0 && (y % 100 ≠ 0 || y % 400 = 0)

/-- Number of days in a month, as used by `datetime.date`. -/
def daysInMonth (y m : Nat) : Nat :=
  if m = 2 then (if isLeap y then 29 else 28)
  else if m = 4 || m = 6 || m = 9 || m = 11 then 30 else 31

/-- Line 227: `datetime.strptime(cleaned, '%d %B %Y').date()`, returning
`some (day, month, year)` on success and `none` on any `ValueError`.
CPython's `%d` regex is `3[01]|[12]\x5cd|0[1-9]|[1-9]` followed by `\x5cs+`, so
the leading digit run must have length 1 or 2 and value 1-31; `%B` is the
alternation of full month names, IGNORECASE; the literal spaces match one or
more whitespace characters; `%Y` is exactly four digits; the whole string
must be consumed; finally `date()` checks the day against the month length. -/
def parseDMY (s : String) : Option (Nat × Nat × Nat) :=
  let cs := s.toList
  let ds := cs.takeWhile (fun c => c.isDigit)
  let r1 := cs.dropWhile (fun c => c.isDigit)
  if ds.length = 0 || 2 < ds.length then none
  else
    let day := natOfDigits ds
    if day = 0 || 31 < day then none
    else if (r1.takeWhile isSpaceCh).length = 0 then none
    else
      let r2 := r1.dropWhile isSpaceCh
      match matchMonthFrom 1 monthNames r2 with
      | none => none
      | some (mo, r3) =>
        if (r3.takeWhile isSpaceCh).length = 0 then none
        else
          let r4 := r3.dropWhile isSpaceCh
          let ys := r4.takeWhile (fun c => c.isDigit)
          let r5 := r4.dropWhile (fun c => c.isDigit)
          if ys.length ≠ 4 || r5 ≠ [] then none
          else
            let yr := natOfDigits ys
            if yr = 0 then none
            else if day ≤ daysInMonth yr mo then some (day, mo, yr)
            else none

/-- A `datetime.date` value. -/
structure PyDate where
  y : Nat
  m : Nat
  d : Nat
deriving DecidableEq

/-- Comparison of `datetime.date` values (lexicographic on year, month,
day, which is how Python compares dates). -/
def dateLtb (a b : PyDate) : Bool :=
  a.y < b.y || (a.y == b.y && (a.m < b.m || (a.m == b.m && a.d < b.d)))

/-- Line 233: `tomorrow = today + timedelta(days=1)` for a valid date. -/
def nextDay (dt : PyDate) : PyDate :=
  if dt.d < daysInMonth dt.y dt.m then ⟨dt.y, dt.m, dt.d + 1⟩
  else if dt.m < 12 then ⟨dt.y, dt.m + 1, 1⟩
  else ⟨dt.y + 1, 1, 1⟩

/-- Python `d.get(k)` on the association-list dict model. Keys built by
`dictInsert` are unique, so the first hit is the binding. -/
def lookupKey (d : List (String × String)) (k : String) : Option String :=
  (d.find? (fun p => p.1 == k)).map Prod.snd

/-- Python `d.get(k, default)`. -/
def pyGetD (d : List (String × String)) (k dflt : String) : String :=
  (lookupKey d k).getD dflt

/-- The listing determination derived by lines 221-245. -/
inductive ListingDet where
  | listed : ListingDet
  | notListedFuture : ListingDet
  | notListedPast : ListingDet
  | unknown : ListingDet
deriving DecidableEq

/-- What the listing block reports: the determination, plus (only in the
listed case, lines 236-238) the raw date string printed as "Listing Date"
and the "Case Stage" value printed as "Purpose". -/
structure ListingReport where
  det : ListingDet
  listingDate : Option String
  purpose : Option String
deriving DecidableEq

/-- Lines 221-245: read "Next Hearing Date" (a missing key and an empty
string are both falsy, line 223), clean and parse it, and compare with
today and tomorrow. A parse failure is reported and leaves the
determination unknown (no listing statement is printed). -/
def interpretListing (details : List (String × String)) (today : PyDate) : ListingReport :=
  match lookupKey details "Next Hearing Date" with
  | none => ⟨ListingDet.unknown, none, none⟩
  | some s =>
    if s = "" then ⟨ListingDet.unknown, none, none⟩
    else
      match parseDMY (cleanDate s) with
      | none => ⟨ListingDet.unknown, none, none⟩
      | some (d, m, y) =>
        let dObj : PyDate := ⟨y, m, d⟩
        let tmw := nextDay today
        if dObj = today ∨ dObj = tmw then
          ⟨ListingDet.listed, some s, some (pyGetD details "Case Stage" "N/A")⟩
        else if dateLtb tmw dObj then ⟨ListingDet.notListedFuture, none, none⟩
        else ⟨ListingDet.notListedPast, none, none⟩

/-- Lines 199-205: build `all_details` from the status table's rows; every
row with at least two cells contributes label/value (stripped), later
duplicates overwriting earlier values in place. -/
def buildDetails (rows : List (List String)) : List (String × String) :=
  rows.foldl
    (fun d cells =>
      match cells with
      | c0 :: c1 :: _ => dictInsert d (pyStrip c0) (pyStrip c1)
      | _ => d)
    []

/-- Lines 188-245, `parse_and_display_results` in the shallow embedding:
`none` input models a page without the `case_status_table` (the function
prints a message and returns early); otherwise the details dict and the
listing report are both produced. Console output is abstracted away. -/
def parseAndDisplayResults (statusTable : Option (List (List String))) (today : PyDate) :
    Option (List (String × String) × ListingReport) :=
  match statusTable with
  | none => none
  | some rows =>
    let details := buildDetails rows
    some (details, interpretListing details today)

theorem dictInsert_keys (d : List (String × String)) (k v : String) :
    (dictInsert d k v).map Prod.fst =
      d.map Prod.fst ++ (if k ∈ d.map Prod.fst then [] else [k]) := by
  induction d with
  | nil => simp [dictInsert]
  | cons p rest ih =>
    obtain ⟨k', v'⟩ := p
    by_cases h : k' = k
    · subst h
      simp [dictInsert]
    · have hk : ¬ k = k' := fun hh => h hh.symm
      simp only [dictInsert, if_neg h, List.map_cons, ih, List.mem_cons]
      by_cases hm : k ∈ rest.map Prod.fst
      · simp [hm, hk]
      · simp [hm, hk]

theorem dictInsert_mem (k v : String) (q : String × String) :
    ∀ d : List (String × String), q ∈ dictInsert d k v → q ∈ d ∨ q = (k, v) := by
  intro d
  induction d with
  | nil => intro h; exact Or.inr (by simpa [dictInsert] using h)
  | cons p rest ih =>
    obtain ⟨k', v'⟩ := p
    intro h
    simp only [dictInsert] at h
    by_cases hk : k' = k
    · rw [if_pos hk, List.mem_cons] at h
      rcases h with h2 | h2
      · exact Or.inr (by rw [h2, hk])
      · exact Or.inl (List.mem_cons_of_mem _ h2)
    · rw [if_neg hk, List.mem_cons] at h
      rcases h with h2 | h2
      · exact Or.inl (by simp [h2])
      · rcases ih h2 with h' | h'
        · exact Or.inl (List.mem_cons_of_mem _ h')
        · exact Or.inr h'

theorem foldInsert_keys (ps : List (String × String)) :
    ∀ d : List (String × String),
      ∃ s, ((ps.foldl (fun acc p => dictInsert acc p.1 p.2) d).map Prod.fst
              = d.map Prod.fst ++ s)
        ∧ List.Sublist s (ps.map Prod.fst) := by
  induction ps with
  | nil => intro d; exact ⟨[], by simp, List.Sublist.refl _⟩
  | cons p ps ih =>
    intro d
    obtain ⟨s, hs, hsub⟩ := ih (dictInsert d p.1 p.2)
    simp only [List.foldl_cons]
    by_cases hm : p.1 ∈ d.map Prod.fst
    · refine ⟨s, ?_, ?_⟩
      · rw [hs, dictInsert_keys, if_pos hm, List.append_nil]
      · exact List.Sublist.trans hsub (List.sublist_cons_self _ _)
    · refine ⟨p.1 :: s, ?_, ?_⟩
      · rw [hs, dictInsert_keys, if_neg hm, List.append_assoc]
        rfl
      · exact List.Sublist.cons₂ _ hsub

theorem foldInsert_mem (ps : List (String × String)) :
    ∀ (d : List (String × String)) (q : String × String),
      q ∈ ps.foldl (fun acc p => dictInsert acc p.1 p.2) d → q ∈ d ∨ q ∈ ps := by
  induction ps with
  | nil => intro d q h; exact Or.inl (by simpa using h)
  | cons p ps ih =>
    intro d q h
    simp only [List.foldl_cons] at h
    rcases ih (dictInsert d p.1 p.2) q h with h' | h'
    · rcases dictInsert_mem p.1 p.2 q d h' with h'' | h''
      · exact Or.inl h''
      · exact Or.inr (by simp [h''])
    · exact Or.inr (List.mem_cons_of_mem _ h')

theorem zip_map_fst_take (l1 l2 : List String) :
    (l1.zip l2).map Prod.fst = l1.take l2.length := by
  induction l1 generalizing l2 with
  | nil => simp
  | cons a l1 ih =>
    cases l2 with
    | nil => simp
    | cons b l2 => simp [ih]

theorem deriveHeaders_of_th (t : HTable) (h : thTexts t ≠ []) :
    deriveHeaders t = thTexts t := by
  unfold deriveHeaders
  have he : (thTexts t).isEmpty = false := by
    cases hh : thTexts t
    · exact absurd hh h
    · rfl
  simp [he]

theorem usedRows_of_headers (t : HTable) (h : deriveHeaders t ≠ []) :
    usedRows t = t.rows.drop 1 := by
  unfold usedRows
  have he : (deriveHeaders t).isEmpty = false := by
    cases hh : deriveHeaders t
    · exact absurd hh h
    · rfl
  simp [he]

theorem extract_mem_of_headers (t : HTable) (h : deriveHeaders t ≠ [])
    (rec : List (String × String)) (hrec : rec ∈ extract t) :
    ∃ row, row ∈ t.rows.drop 1 ∧ (tdTexts row).isEmpty = false
      ∧ rec = mkRecord (deriveHeaders t) (tdTexts row) := by
  have he : (deriveHeaders t).isEmpty = false := by
    cases hh : deriveHeaders t
    · exact absurd hh h
    · rfl
  unfold extract at hrec
  rw [List.mem_filterMap] at hrec
  obtain ⟨row, hrow, heq⟩ := hrec
  rw [usedRows_of_headers t h] at hrow
  refine ⟨row, hrow, ?_, ?_⟩
  · by_contra hc
    have hc' : (tdTexts row).isEmpty = true := by
      cases hcc : (tdTexts row).isEmpty
      · exact absurd hcc hc
      · rfl
    simp only [hc', if_pos] at heq
    exact Option.noConfusion heq
  · cases hcc : (tdTexts row).isEmpty with
    | true =>
      simp only [hcc, if_pos] at heq
      exact Option.noConfusion heq
    | false =>
      simp only [hcc, he, Bool.false_eq_true, if_false] at heq
      exact (Option.some.injEq _ _ ▸ heq).symm

theorem mkRecord_keys (headers cells : List String) :
    List.Sublist ((mkRecord headers cells).map Prod.fst) (headers.take cells.length) := by
  obtain ⟨s, hs, hsub⟩ := foldInsert_keys (headers.zip cells) []
  unfold mkRecord
  rw [hs]
  simp only [List.map_nil, List.nil_append]
  rw [zip_map_fst_take] at hsub
  exact hsub

theorem mkRecord_mem (headers cells : List String) (p : String × String)
    (hp : p ∈ mkRecord headers cells) : p ∈ headers.zip cells := by
  rcases foldInsert_mem (headers.zip cells) [] p hp with h | h
  · exact absurd h (List.not_mem_nil p)
  · exact h

theorem dateLtb_trans (a b c : PyDate) (h1 : dateLtb a b = true) (h2 : dateLtb b c = true) :
    dateLtb a c = true := by
  obtain ⟨ay, am, ad⟩ := a
  obtain ⟨by', bm, bd⟩ := b
  obtain ⟨cy, cm, cd⟩ := c
  simp only [dateLtb, Bool.or_eq_true, Bool.and_eq_true, decide_eq_true_eq, beq_iff_eq] at *
  omega

theorem dateLtb_ne (a b : PyDate) (h : dateLtb a b = true) : a ≠ b := by
  intro heq
  subst heq
  obtain ⟨ay, am, ad⟩ := a
  simp only [dateLtb, Bool.or_eq_true, Bool.and_eq_true, decide_eq_true_eq, beq_iff_eq] at h
  omega

theorem dateLtb_asymm (a b : PyDate) (h : dateLtb a b = true) : dateLtb b a = false := by
  obtain ⟨ay, am, ad⟩ := a
  obtain ⟨by', bm, bd⟩ := b
  simp only [dateLtb, Bool.or_eq_true, Bool.and_eq_true, decide_eq_true_eq, beq_iff_eq,
    Bool.or_eq_false_iff, Bool.and_eq_false_iff, decide_eq_false_iff_not, beq_eq_false_iff_ne] at *
  omega

theorem lt_nextDay (dt : PyDate) : dateLtb dt (nextDay dt) = true := by
  obtain ⟨y, m, d⟩ := dt
  unfold nextDay
  split
  · simp [dateLtb]
  · split
    · simp [dateLtb]
    · simp [dateLtb]

theorem pickBest_foldl (rest : List HTable) :
    ∀ t : HTable,
      (∀ u ∈ rest, u.rows.length ≤ (rest.foldl pickBest t).rows.length) ∧
      t.rows.length ≤ (rest.foldl pickBest t).rows.length ∧
      (rest.foldl pickBest t = t ∨
        ∃ pre c post, rest = pre ++ c :: post ∧ rest.foldl pickBest t = c ∧
          t.rows.length < c.rows.length ∧ ∀ u ∈ pre, u.rows.length < c.rows.length) := by
  induction rest with
  | nil =>
    intro t
    refine ⟨?_, Nat.le_refl _, Or.inl rfl⟩
    intro u hu
    exact absurd hu (List.not_mem_nil u)
  | cons c rest ih =>
    intro t
    simp only [List.foldl_cons]
    obtain ⟨ihAll, ihStart, ihPos⟩ := ih (pickBest t c)
    by_cases hc : t.rows.length < c.rows.length
    · have hp : pickBest t c = c := by simp [pickBest, hc]
      rw [hp] at ihAll ihStart ihPos ⊢
      refine ⟨?_, Nat.le_trans (Nat.le_of_lt hc) ihStart, ?_⟩
      · intro u hu
        rcases List.mem_cons.mp hu with h | h
        · subst h; exact ihStart
        · exact ihAll u h
      · rcases ihPos with heq | ⟨pre, c', post, hrest, heq, hlt, hpre⟩
        · refine Or.inr ⟨[], c, rest, rfl, heq, hc, ?_⟩
          intro u hu
          exact absurd hu (List.not_mem_nil u)
        · refine Or.inr ⟨c :: pre, c', post, by rw [hrest, List.cons_append], heq,
            Nat.lt_trans hc hlt, ?_⟩
          intro u hu
          rcases List.mem_cons.mp hu with h | h
          · subst h; exact hlt
          · exact hpre u h
    · have hp : pickBest t c = t := by simp [pickBest, hc]
      rw [hp] at ihAll ihStart ihPos ⊢
      have hcle : c.rows.length ≤ t.rows.length := Nat.le_of_not_lt hc
      refine ⟨?_, ihStart, ?_⟩
      · intro u hu
        rcases List.mem_cons.mp hu with h | h
        · subst h; exact Nat.le_trans hcle ihStart
        · exact ihAll u h
      · rcases ihPos with heq | ⟨pre, c', post, hrest, heq, hlt, hpre⟩
        · exact Or.inl heq
        · refine Or.inr ⟨c :: pre, c', post, by rw [hrest, List.cons_append], heq, hlt, ?_⟩
          intro u hu
          rcases List.mem_cons.mp hu with h | h
          · subst h; exact Nat.lt_of_le_of_lt hcle hlt
          · exact hpre u h

/-- A concrete table with three header cells and one short data row, used
as the witness input for claim C1. -/
def tClaim1 : HTable :=
  ⟨[], [⟨[⟨true, "A"⟩, ⟨true, "B"⟩, ⟨true, "C"⟩]⟩, ⟨[⟨false, "x"⟩, ⟨false, "y"⟩]⟩]⟩

/-- A concrete table with two header cells, one full data row and one short
data row, used for claim C3. -/
def tClaim3 : HTable :=
  ⟨[], [⟨[⟨true, "A"⟩, ⟨true, "B"⟩]⟩, ⟨[⟨false, "x"⟩, ⟨false, "y"⟩]⟩, ⟨[⟨false, "z"⟩]⟩]⟩

/-- The header-less two-row table of claim C7. -/
def tClaim7 : HTable :=
  ⟨[], [⟨[⟨false, "1"⟩, ⟨false, "123/2024"⟩]⟩, ⟨[⟨false, "2"⟩, ⟨false, "456/2024"⟩]⟩]⟩

/-- A one-row table with no CSS class, used for claim C4. -/
def tSmallTbl : HTable := ⟨[], [⟨[⟨false, "a"⟩]⟩]⟩

/-- A two-row table with no CSS class, used for claim C4. -/
def tBigTbl : HTable := ⟨[], [⟨[⟨false, "b"⟩]⟩, ⟨[⟨false, "c"⟩]⟩]⟩

/-- A table whose first row holds only td cells while a th cell sits in the
second row, used for claim C9. -/
def tClaim9 : HTable :=
  ⟨[], [⟨[⟨false, "d1"⟩, ⟨false, "d2"⟩]⟩, ⟨[⟨true, "H"⟩]⟩]⟩

/-- A table whose only row is a pure header row, so zero records qualify;
used for claim C10. -/
def tClaim10 : HTable := ⟨[], [⟨[⟨true, "H"⟩]⟩]⟩

/-- Claim C1: for every table containing at least one th cell, each
extracted Record's key list is an order-preserving subset (sublist) of the
derived header list; the keys even lie within the first
(number-of-cells-in-that-row) headers, so headers with no corresponding
cell are absent, and every key-value pair of the Record comes from the
positional zip of the headers with the row's cells, so cells beyond the
header count are dropped. -/
theorem claim1_record_keys_subset_headers (t : HTable) (h : thTexts t ≠ []) :
    ∀ rec ∈ extract t, ∃ row, row ∈ t.rows.drop 1 ∧
      List.Sublist (rec.map Prod.fst) (deriveHeaders t) ∧
      List.Sublist (rec.map Prod.fst) ((deriveHeaders t).take (tdTexts row).length) ∧
      ∀ p ∈ rec, p ∈ (deriveHeaders t).zip (tdTexts row) := by
  intro rec hrec
  have hd : deriveHeaders t ≠ [] := by
    rw [deriveHeaders_of_th t h]
    exact h
  obtain ⟨row, hrow, hcell, hrec'⟩ := extract_mem_of_headers t hd rec hrec
  subst hrec'
  refine ⟨row, hrow, ?_, mkRecord_keys _ _, ?_⟩
  · exact List.Sublist.trans (mkRecord_keys _ _) (List.take_sublist _ _)
  · intro p hp
    exact mkRecord_mem _ _ p hp

/-- Witness for claim C1 at the concrete table tClaim1: headers A, B, C and
the single data row x, y give the Record with keys A, B. -/
theorem claim1_witness :
    thTexts tClaim1 ≠ [] ∧
    ([("A", "x"), ("B", "y")] : List (String × String)) ∈ extract tClaim1 ∧
    (∃ row, row ∈ tClaim1.rows.drop 1 ∧
      List.Sublist ((([("A", "x"), ("B", "y")] : List (String × String))).map Prod.fst)
        (deriveHeaders tClaim1) ∧
      List.Sublist ((([("A", "x"), ("B", "y")] : List (String × String))).map Prod.fst)
        ((deriveHeaders tClaim1).take (tdTexts row).length) ∧
      ∀ p ∈ ([("A", "x"), ("B", "y")] : List (String × String)),
        p ∈ (deriveHeaders tClaim1).zip (tdTexts row)) :=
  ⟨by decide, by decide,
    claim1_record_keys_subset_headers tClaim1 (by decide) [("A", "x"), ("B", "y")] (by decide)⟩

/-- Claim C2 counterexample: the stripping is not limited to numeric day
tokens. In "1st August 2025" the replace chain also deletes the "st" inside
"August", producing "1 Augu 2025", which then fails every parse attempt,
whereas the day-token-only stripping that the claim describes would yield
"1 August 2025", which parses fine. -/
theorem claim2_counterexample :
    cleanDate "1st August 2025" = "1 Augu 2025" ∧
    parseDMY (cleanDate "1st August 2025") = none ∧
    parseDMY "1 August 2025" = some (1, 8, 2025) := by decide

/-- Claim C2 amended: the replace chain deletes every occurrence of the
substrings "st", "nd", "rd", "th" anywhere in the string (not only on
numeric day tokens); on the specific input "15(th|st|nd|rd) November 2025"
no month letters are affected, so it parses to day 15, month November (11),
year 2025 whichever of the four suffixes is present. -/
theorem claim2_amended_ordinal_strip :
    parseDMY (cleanDate "15th November 2025") = some (15, 11, 2025) ∧
    parseDMY (cleanDate "15st November 2025") = some (15, 11, 2025) ∧
    parseDMY (cleanDate "15nd November 2025") = some (15, 11, 2025) ∧
    parseDMY (cleanDate "15rd November 2025") = some (15, 11, 2025) := by decide

/-- Claim C3 counterexample: one extraction run over tClaim3 (headers A, B;
data rows of width 2 and 1) produces Records with key sets of different
sizes, so not all Records of a run share the same key set. -/
theorem claim3_counterexample :
    (extract tClaim3).map (fun rec => rec.map Prod.fst) = [["A", "B"], ["A"]] ∧
    (["A", "B"] : List String) ≠ ["A"] := by decide

/-- Claim C3 amended: every Record of one extraction draws its keys, in
order, from the single header list derived once for the table; each
Record's key list is a sublist of that shared list, and may be strictly
shorter for rows with fewer cells than headers. -/
theorem claim3_amended_keys_from_shared_headers (t : HTable) (h : deriveHeaders t ≠ []) :
    ∀ rec ∈ extract t, List.Sublist (rec.map Prod.fst) (deriveHeaders t) := by
  intro rec hrec
  obtain ⟨row, hrow, hcell, hrec'⟩ := extract_mem_of_headers t h rec hrec
  subst hrec'
  exact List.Sublist.trans (mkRecord_keys _ _) (List.take_sublist _ _)

/-- Witness for the amended claim C3 at tClaim3 and its short-row Record. -/
theorem claim3_witness :
    deriveHeaders tClaim3 ≠ [] ∧
    ([("A", "z")] : List (String × String)) ∈ extract tClaim3 ∧
    List.Sublist ((([("A", "z")] : List (String × String))).map Prod.fst)
      (deriveHeaders tClaim3) :=
  ⟨by decide, by decide,
    claim3_amended_keys_from_shared_headers tClaim3 (by decide) [("A", "z")] (by decide)⟩

/-- Claim C4 counterexample: with the results iframe available and holding
two candidate tables, neither carrying any CSS class marker, the locator
takes the first table of the iframe even though the second has strictly
more rows. -/
theorem claim4_counterexample :
    tSmallTbl.classes = [] ∧ tBigTbl.classes = [] ∧
    tSmallTbl.rows.length < tBigTbl.rows.length ∧
    locateTable (some [tSmallTbl, tBigTbl]) [] = some tSmallTbl ∧
    tSmallTbl ≠ tBigTbl := by decide

/-- Claim C4 amended: only in the top-level branch (no iframe, or an iframe
with no table) does the locator pick the table with the greatest row count,
ties broken in favour of the first in document order; inside an iframe that
has tables, the first table is taken unconditionally regardless of size,
and no case-status class marker is consulted anywhere in the cause-list
path. -/
theorem claim4_amended_biggest_wins_top_level (ts : List HTable) (h : ts ≠ []) :
    ∃ tb pre post, locateTable none ts = some tb ∧ ts = pre ++ tb :: post ∧
      (∀ u ∈ pre, u.rows.length < tb.rows.length) ∧
      ∀ u ∈ ts, u.rows.length ≤ tb.rows.length := by
  cases ts with
  | nil => exact absurd rfl h
  | cons t rest =>
    obtain ⟨hAll, hStart, hPos⟩ := pickBest_foldl rest t
    have hloc : locateTable none (t :: rest) = some (rest.foldl pickBest t) := rfl
    rcases hPos with heq | ⟨pre, c, post, hrest, heq, hlt, hpre⟩
    · refine ⟨t, [], rest, by rw [hloc, heq], rfl, ?_, ?_⟩
      · intro u hu
        exact absurd hu (List.not_mem_nil u)
      · intro u hu
        rcases List.mem_cons.mp hu with h' | h'
        · subst h'; exact Nat.le_refl _
        · have := hAll u h'
          rw [heq] at this
          exact this
    · refine ⟨c, t :: pre, post, by rw [hloc, heq], ?_, ?_, ?_⟩
      · rw [hrest, List.cons_append]
      · intro u hu
        rcases List.mem_cons.mp hu with h' | h'
        · subst h'; exact hlt
        · exact hpre u h'
      · intro u hu
        rcases List.mem_cons.mp hu with h' | h'
        · subst h'; exact Nat.le_of_lt hlt
        · have := hAll u h'
          rw [heq] at this
          exact this

/-- Witness for the amended claim C4 on a concrete two-table top-level
document. -/
theorem claim4_witness :
    ([tSmallTbl, tBigTbl] : List HTable) ≠ [] ∧
    (∃ tb pre post, locateTable none [tSmallTbl, tBigTbl] = some tb ∧
      [tSmallTbl, tBigTbl] = pre ++ tb :: post ∧
      (∀ u ∈ pre, u.rows.length < tb.rows.length) ∧
      ∀ u ∈ ([tSmallTbl, tBigTbl] : List HTable), u.rows.length ≤ tb.rows.length) :=
  ⟨by decide, claim4_amended_biggest_wins_top_level [tSmallTbl, tBigTbl] (by decide)⟩

/-- Claim C5: for a successfully parsed Next Hearing Date D: D equal to
today or tomorrow gives the listed outcome, reporting the raw date string
and the Case Stage value as the purpose; D strictly after tomorrow gives
notListedFuture; D strictly before today gives notListedPast; and a details
table with no Next Hearing Date key gives unknown. -/
theorem claim5_listing_determination (details : List (String × String)) (today : PyDate) :
    (∀ s d m y, lookupKey details "Next Hearing Date" = some s → s ≠ "" →
      parseDMY (cleanDate s) = some (d, m, y) →
      (((⟨y, m, d⟩ : PyDate) = today ∨ (⟨y, m, d⟩ : PyDate) = nextDay today) →
        interpretListing details today =
          ⟨ListingDet.listed, some s, some (pyGetD details "Case Stage" "N/A")⟩) ∧
      (dateLtb (nextDay today) ⟨y, m, d⟩ = true →
        (interpretListing details today).det = ListingDet.notListedFuture) ∧
      (dateLtb ⟨y, m, d⟩ today = true →
        (interpretListing details today).det = ListingDet.notListedPast)) ∧
    (lookupKey details "Next Hearing Date" = none →
      (interpretListing details today).det = ListingDet.unknown) := by
  constructor
  · intro s d m y hs hne hp
    refine ⟨?_, ?_, ?_⟩
    · intro heq
      unfold interpretListing
      simp only [hs, if_neg hne, hp]
      rw [if_pos heq]
    · intro hlt
      have htd : dateLtb today (⟨y, m, d⟩ : PyDate) = true :=
        dateLtb_trans _ _ _ (lt_nextDay today) hlt
      have hne1 : (⟨y, m, d⟩ : PyDate) ≠ today := fun he => dateLtb_ne _ _ htd he.symm
      have hne2 : (⟨y, m, d⟩ : PyDate) ≠ nextDay today := fun he => dateLtb_ne _ _ hlt he.symm
      unfold interpretListing
      simp only [hs, if_neg hne, hp]
      rw [if_neg (fun hor => hor.elim hne1 hne2), if_pos hlt]
    · intro hlt
      have hdt : dateLtb (⟨y, m, d⟩ : PyDate) (nextDay today) = true :=
        dateLtb_trans _ _ _ hlt (lt_nextDay today)
      have hne1 : (⟨y, m, d⟩ : PyDate) ≠ today := dateLtb_ne _ _ hlt
      have hne2 : (⟨y, m, d⟩ : PyDate) ≠ nextDay today := dateLtb_ne _ _ hdt
      have hfl : dateLtb (nextDay today) (⟨y, m, d⟩ : PyDate) = false := dateLtb_asymm _ _ hdt
      unfold interpretListing
      simp only [hs, if_neg hne, hp]
      rw [if_neg (fun hor => hor.elim hne1 hne2),
        if_neg (fun hc => Bool.false_ne_true (hfl ▸ hc))]
  · intro hnone
    unfold interpretListing
    rw [hnone]

/-- Details dict whose Next Hearing Date equals the reference date. -/
def detailsToday : List (String × String) :=
  [("Next Hearing Date", "10 March 2025"), ("Case Stage", "Evidence")]

/-- Details dict whose Next Hearing Date is the day after the reference
date. -/
def detailsTomorrow : List (String × String) :=
  [("Next Hearing Date", "11 March 2025")]

/-- Details dict with a far-future Next Hearing Date. -/
def detailsFuture : List (String × String) :=
  [("Next Hearing Date", "01 January 2026")]

/-- Details dict with a past Next Hearing Date. -/
def detailsPast : List (String × String) :=
  [("Next Hearing Date", "01 January 2020")]

/-- Details dict with no Next Hearing Date key at all. -/
def detailsDisposed : List (String × String) :=
  [("Decision Date", "05 May 2024")]

/-- The reference date 2025-03-10 used by the spec's examples. -/
def specRefDate : PyDate := ⟨2025, 3, 10⟩

/-- Witness for claim C5 exercising all four branches at the spec's example
dates against today = 2025-03-10. -/
theorem claim5_witness :
    interpretListing detailsToday specRefDate =
      ⟨ListingDet.listed, some "10 March 2025", some (pyGetD detailsToday "Case Stage" "N/A")⟩ ∧
    interpretListing detailsTomorrow specRefDate =
      ⟨ListingDet.listed, some "11 March 2025", some (pyGetD detailsTomorrow "Case Stage" "N/A")⟩ ∧
    (interpretListing detailsFuture specRefDate).det = ListingDet.notListedFuture ∧
    (interpretListing detailsPast specRefDate).det = ListingDet.notListedPast ∧
    (interpretListing detailsDisposed specRefDate).det = ListingDet.unknown :=
  ⟨((claim5_listing_determination detailsToday specRefDate).1 "10 March 2025" 10 3 2025
      (by decide) (by decide) (by decide)).1 (Or.inl (by decide)),
    ((claim5_listing_determination detailsTomorrow specRefDate).1 "11 March 2025" 11 3 2025
      (by decide) (by decide) (by decide)).1 (Or.inr (by decide)),
    ((claim5_listing_determination detailsFuture specRefDate).1 "01 January 2026" 1 1 2026
      (by decide) (by decide) (by decide)).2.1 (by decide),
    ((claim5_listing_determination detailsPast specRefDate).1 "01 January 2020" 1 1 2020
      (by decide) (by decide) (by decide)).2.2 (by decide),
    (claim5_listing_determination detailsDisposed specRefDate).2 (by decide)⟩

/-- Claim C6: when the Next Hearing Date string fails every parse attempt,
the interpreter yields the unknown determination and the whole
parse-and-display step still returns a full result with all extracted
fields intact (no fatal error). -/
theorem claim6_parse_failure_recovered (rows : List (List String)) (today : PyDate)
    (s : String) (hs : lookupKey (buildDetails rows) "Next Hearing Date" = some s)
    (hp : parseDMY (cleanDate s) = none) :
    parseAndDisplayResults (some rows) today =
      some (buildDetails rows, ⟨ListingDet.unknown, none, none⟩) := by
  have hil : interpretListing (buildDetails rows) today = ⟨ListingDet.unknown, none, none⟩ := by
    unfold interpretListing
    simp only [hs]
    by_cases hse : s = ""
    · rw [if_pos hse]
    · rw [if_neg hse]
      simp only [hp]
  show some (buildDetails rows, interpretListing (buildDetails rows) today) =
    some (buildDetails rows, ⟨ListingDet.unknown, none, none⟩)
  rw [hil]

/-- Status-table rows whose Next Hearing Date is the spec's malformed
example "32nd Rainuary 2025". -/
def rowsMalformed : List (List String) :=
  [["Next Hearing Date", "32nd Rainuary 2025"], ["Case Stage", "Evidence"]]

/-- Witness for claim C6 at the concrete malformed date of the spec. -/
theorem claim6_witness :
    lookupKey (buildDetails rowsMalformed) "Next Hearing Date" = some "32nd Rainuary 2025" ∧
    parseDMY (cleanDate "32nd Rainuary 2025") = none ∧
    parseAndDisplayResults (some rowsMalformed) specRefDate =
      some (buildDetails rowsMalformed, ⟨ListingDet.unknown, none, none⟩) :=
  ⟨by decide, by decide,
    claim6_parse_failure_recovered rowsMalformed specRefDate "32nd Rainuary 2025"
      (by decide) (by decide)⟩

/-- Claim C7: the header-less table with rows 1,123/2024 and 2,456/2024 is
extracted by promoting the first row to headers, yielding exactly one
Record mapping "1" to "2" and "123/2024" to "456/2024". -/
theorem claim7_first_row_as_headers :
    extract tClaim7 = [[("1", "2"), ("123/2024", "456/2024")]] := by decide

/-- Claim C8 counterexample: for the concrete zero-table document (no
iframe over an empty top-level document, and likewise a table-less iframe
over an empty top-level document) the run ends in the line-130 timeout
failure — the table-presence wait can never succeed there — which is not
the NoTableFound signal of lines 90-92, so extraction does not signal
NoTableFound on a zero-table document. -/
theorem claim8_counterexample :
    downloadCauselist none [] = CLResult.timedOut ∧
    downloadCauselist (some []) [] = CLResult.timedOut ∧
    CLResult.timedOut ≠ CLResult.noTableFound := by decide

/-- Claim C8 amended: a document context with zero table nodes makes the
cause-list run end in the timeout failure (the table-presence wait times
out and the handler at line 130 returns None, writing no file) rather than
the NoTableFound signal of lines 90-92, which no run produces in this
race-free model; and no run whatsoever returns a success carrying an empty
Record sequence. -/
theorem claim8_amended_zero_tables_time_out (iframeTables : Option (List HTable))
    (topTables : List HTable) :
    downloadCauselist none [] = CLResult.timedOut ∧
    downloadCauselist (some []) [] = CLResult.timedOut ∧
    downloadCauselist iframeTables topTables ≠ CLResult.noTableFound ∧
    downloadCauselist iframeTables topTables ≠ CLResult.saved [] := by
  refine ⟨rfl, rfl, ?_, ?_⟩
  · unfold downloadCauselist
    cases hloc : locateTable iframeTables topTables with
    | none =>
      intro hcon
      exact CLResult.noConfusion hcon
    | some tb =>
      show (if (extract tb).isEmpty = true then CLResult.noCases
          else CLResult.saved (extract tb)) ≠ CLResult.noTableFound
      by_cases hc : (extract tb).isEmpty = true
      · rw [if_pos hc]
        intro hcon
        exact CLResult.noConfusion hcon
      · rw [if_neg hc]
        intro hcon
        exact CLResult.noConfusion hcon
  · unfold downloadCauselist
    cases hloc : locateTable iframeTables topTables with
    | none =>
      intro hcon
      exact CLResult.noConfusion hcon
    | some tb =>
      show (if (extract tb).isEmpty = true then CLResult.noCases
          else CLResult.saved (extract tb)) ≠ CLResult.saved []
      by_cases hc : (extract tb).isEmpty = true
      · rw [if_pos hc]
        intro hcon
        exact CLResult.noConfusion hcon
      · rw [if_neg hc]
        intro hcon
        have hext : extract tb = [] := by injection hcon
        exact hc (by rw [hext]; rfl)

/-- Claim C9: whenever the table has at least one th cell anywhere, the
header list is exactly the stripped text of all th cells of the whole
table, and the first tr is excluded from the data rows unconditionally. -/
theorem claim9_headers_all_th_first_row_dropped (t : HTable) (h : thTexts t ≠ []) :
    deriveHeaders t = thTexts t ∧ usedRows t = t.rows.drop 1 := by
  have h1 := deriveHeaders_of_th t h
  refine ⟨h1, usedRows_of_headers t ?_⟩
  rw [h1]
  exact h

/-- Witness for claim C9 at tClaim9, whose first row holds only td data
cells while the single th cell sits in the second row. -/
theorem claim9_witness :
    thTexts tClaim9 ≠ [] ∧ (tClaim9.rows.head?.map (fun r => tdTexts r)) = some ["d1", "d2"] ∧
    (deriveHeaders tClaim9 = thTexts tClaim9 ∧ usedRows tClaim9 = tClaim9.rows.drop 1) :=
  ⟨by decide, by decide, claim9_headers_all_th_first_row_dropped tClaim9 (by decide)⟩

/-- Claim C10: when a table is located but zero rows qualify as Records,
the run ends in the no-cases failure (no file written, None returned), and
in particular not in a success carrying an empty Record sequence. -/
theorem claim10_zero_records_no_file (iframeTables : Option (List HTable))
    (topTables : List HTable) (tb : HTable)
    (hloc : locateTable iframeTables topTables = some tb)
    (hext : extract tb = []) :
    downloadCauselist iframeTables topTables = CLResult.noCases ∧
    downloadCauselist iframeTables topTables ≠ CLResult.saved [] := by
  unfold downloadCauselist
  rw [hloc]
  show (if (extract tb).isEmpty = true then CLResult.noCases
        else CLResult.saved (extract tb)) = CLResult.noCases ∧
    (if (extract tb).isEmpty = true then CLResult.noCases
        else CLResult.saved (extract tb)) ≠ CLResult.saved []
  rw [hext]
  refine ⟨if_pos rfl, ?_⟩
  decide

/-- Witness for claim C10 at a table whose only row is a header row. -/
theorem claim10_witness :
    locateTable none [tClaim10] = some tClaim10 ∧ extract tClaim10 = [] ∧
    (downloadCauselist none [tClaim10] = CLResult.noCases ∧
      downloadCauselist none [tClaim10] ≠ CLResult.saved []) :=
  ⟨by decide, by decide,
    claim10_zero_records_no_file none [tClaim10] tClaim10 (by decide) (by decide)⟩
